import Mathlib

/-!
Verification of the Get-More-Diners restaurant-marketing core.

The repository ships a Next.js frontend (under `frontend/`), the Postgres
schema (`supabase/schema.sql`), and the backend's API contract document
(`backend/API_CONTRACTS.md`).  The FastAPI backend source itself is not part
of the checked-in sources, so the server-side operations (filter translation,
diner search, AI offer post-processing, campaign materialization) are
modelled here from the specification and the API contract document; the
frontend compose/search flow and the schema constraints are embedded from
the checked-in sources directly.
-/

/-! ## Character/string groundwork

All string computations are carried out on `List Char` so that every
definition evaluates by structural recursion. -/

/-- Lower-case a character list (models SQL `ILIKE` case folding). -/
def lowerList (l : List Char) : List Char := l.map Char.toLower

/-- Substring test: does `pat` occur contiguously inside `hay`?
Models SQL `hay ILIKE '%pat%'` after case folding. -/
def containsSub (hay pat : List Char) : Bool :=
  match hay with
  | [] => pat.isEmpty
  | _ :: rest => pat.isPrefixOf hay || containsSub rest pat

/-- The literal personalization token `{FirstName}` used in message bodies. -/
def tok : List Char := "\x7bFirstName\x7d".toList

/-- One left-to-right greedy scan replacing every occurrence of `tok` by
`rep`.  `skip` counts characters still to be consumed from a previously
matched token occurrence.

Modelled from the spec: the backend renderer ("substituting the literal
token `\x7bFirstName\x7d` with the diner's first name") is not among the
checked-in sources; this is the standard replace-all it describes, and it
matches the frontend preview `message.replace(/\x5c{FirstName\x5c}/g, ...)`
in `frontend/src/app/app/compose/page.tsx`. -/
def replaceGo (rep : List Char) (skip : Nat) : List Char → List Char
  | [] => []
  | c :: rest =>
    match skip with
    | s + 1 => replaceGo rep s rest
    | 0 =>
      if tok.isPrefixOf (c :: rest) then rep ++ replaceGo rep (tok.length - 1) rest
      else c :: replaceGo rep 0 rest

/-- Render a message body for a recipient with the given first name:
every occurrence of `\x7bFirstName\x7d` is replaced by `firstName`. -/
def renderBody (firstName body : String) : String :=
  String.mk (replaceGo firstName.toList 0 body.toList)

/-- Does the token `\x7bFirstName\x7d` occur somewhere in `l`? -/
def hasTok : List Char → Bool
  | [] => false
  | c :: rest => tok.isPrefixOf (c :: rest) || hasTok rest

theorem tok_ne_nil : tok ≠ [] := by decide

theorem tok_length : tok.length = 11 := by decide

/-- `isPrefixOf` unpacked: a verified prefix is an initial segment. -/
theorem isPrefixOf_eq_append (p : List Char) :
    ∀ l : List Char, p.isPrefixOf l = true → l = p ++ l.drop p.length := by
  induction p with
  | nil => intro l _; simp
  | cons a as ih =>
    intro l h
    cases l with
    | nil => simp [List.isPrefixOf] at h
    | cons b bs =>
      simp only [List.isPrefixOf, Bool.and_eq_true, beq_iff_eq] at h
      obtain ⟨rfl, h2⟩ := h
      simp only [List.cons_append, List.drop_succ_cons, List.cons.injEq, true_and]
      exact ih bs h2

/-- A pattern is a prefix of itself followed by anything. -/
theorem isPrefixOf_append_self (p t : List Char) : p.isPrefixOf (p ++ t) = true := by
  induction p with
  | nil => simp [List.isPrefixOf]
  | cons a as ih => simpa [List.isPrefixOf] using ih

/-- `replaceGo` with a pending skip just discards that many characters. -/
theorem replaceGo_skip (rep : List Char) :
    ∀ (l : List Char) (s : Nat), replaceGo rep s l = replaceGo rep 0 (l.drop s) := by
  intro l
  induction l with
  | nil => intro s; cases s <;> simp [replaceGo]
  | cons c rest ih =>
    intro s
    cases s with
    | zero => simp
    | succ s' => simpa [replaceGo] using ih s'

/-- Unfolding: if the token starts right at the head, it is replaced and
scanning resumes after it. -/
theorem replaceGo_tok (rep c : List Char) :
    replaceGo rep 0 (tok ++ c) = rep ++ replaceGo rep 0 c := by
  have hpre : tok.isPrefixOf (tok ++ c) = true := isPrefixOf_append_self tok c
  obtain ⟨t0, ttail, htok⟩ : ∃ t0 ttail, tok = t0 :: ttail := by
    cases h : tok with
    | nil => exact absurd h tok_ne_nil
    | cons x xs => exact ⟨x, xs, rfl⟩
  have hgoal : (tok ++ c) = t0 :: (ttail ++ c) := by rw [htok]; simp
  have hpre' : tok.isPrefixOf (t0 :: (ttail ++ c)) = true := hgoal ▸ hpre
  rw [hgoal]
  simp only [replaceGo, hpre', if_true]
  congr 1
  rw [replaceGo_skip]
  have hlen : tok.length - 1 = ttail.length := by rw [htok]; simp
  rw [hlen, List.drop_left]

/-- A body in which the token does not occur is scanned unchanged. -/
theorem replaceGo_of_not_hasTok (rep : List Char) :
    ∀ l : List Char, hasTok l = false → replaceGo rep 0 l = l := by
  intro l
  induction l with
  | nil => intro _; simp [replaceGo]
  | cons c rest ih =>
    intro h
    simp only [hasTok, Bool.or_eq_false_iff] at h
    obtain ⟨h1, h2⟩ := h
    simp [replaceGo, h1, ih h2]

/-- If the token occurs nowhere in the body, rendering leaves it unchanged. -/
theorem renderBody_of_not_hasTok (firstName body : String)
    (h : hasTok body.toList = false) : renderBody firstName body = body := by
  unfold renderBody
  rw [replaceGo_of_not_hasTok _ _ h]
  rfl

/-- If no occurrence of the token starts strictly before position
`a.length`, the occurrence at `a` is the first one scanned: it is replaced
and the remainder is rendered recursively. -/
theorem replaceGo_first_occurrence (rep : List Char) :
    ∀ (a c : List Char),
      (∀ i, i < a.length → tok.isPrefixOf ((a ++ tok ++ c).drop i) = false) →
      replaceGo rep 0 (a ++ tok ++ c) = a ++ rep ++ replaceGo rep 0 c := by
  intro a
  induction a with
  | nil =>
    intro c _
    simpa using replaceGo_tok rep c
  | cons x a' ih =>
    intro c hno
    have h0 : tok.isPrefixOf ((x :: a' ++ tok ++ c)) = false := by
      have := hno 0 (by simp)
      simpa using this
    obtain ⟨t0, ttail, htok⟩ : ∃ t0 ttail, tok = t0 :: ttail := by
      cases h : tok with
      | nil => exact absurd h tok_ne_nil
      | cons u us => exact ⟨u, us, rfl⟩
    have hstep : replaceGo rep 0 (x :: (a' ++ tok ++ c)) =
        x :: replaceGo rep 0 (a' ++ tok ++ c) := by
      simp only [replaceGo]
      rw [if_neg]
      intro hc
      rw [show (x :: (a' ++ tok ++ c)) = (x :: a' ++ tok ++ c) by simp] at hc
      rw [h0] at hc
      exact Bool.false_ne_true hc
    have hrest : ∀ i, i < a'.length → tok.isPrefixOf ((a' ++ tok ++ c).drop i) = false := by
      intro i hi
      have := hno (i + 1) (by simpa using Nat.succ_lt_succ hi)
      simpa using this
    calc replaceGo rep 0 (x :: a' ++ tok ++ c)
        = x :: replaceGo rep 0 (a' ++ tok ++ c) := by simpa using hstep
      _ = x :: (a' ++ rep ++ replaceGo rep 0 c) := by rw [ih c hrest]
      _ = (x :: a') ++ rep ++ replaceGo rep 0 c := by simp

/-! ## AI offer body truncation

Modelled from the spec: the AI offer endpoint implementation
(`POST /api/v1/ai/offer`, "enforces body length ≤500 chars (email) / ≤160
(sms), truncating at a word boundary if the upstream generator exceeds it";
API_CONTRACTS.md "Smart truncation at word boundaries") is not among the
checked-in sources. -/

/-- The two campaign channels. -/
inductive Channel
  | email
  | sms
deriving DecidableEq

/-- Body length limit per channel (email 500, sms 160). -/
def limitFor : Channel → Nat
  | .email => 500
  | .sms => 160

/-- Discard the final partial word of `t`: keep the characters strictly
before the last space of `t` (empty when `t` has no space). -/
def cutLastSpace (t : List Char) : List Char :=
  ((t.reverse.dropWhile (fun c => decide (c ≠ ' '))).drop 1).reverse

/-- Truncate an over-long body at a word boundary: bodies within the limit
pass through; longer ones are cut to the limit and then trimmed back to the
last complete word. -/
def truncateBody (limit : Nat) (s : List Char) : List Char :=
  if s.length ≤ limit then s else cutLastSpace (s.take limit)

/-- Body returned by the AI offer endpoint given the upstream generator's
body for the requested channel. -/
def aiOfferBody (ch : Channel) (upstream : String) : String :=
  String.mk (truncateBody (limitFor ch) upstream.toList)

theorem length_dropWhile_le {α : Type} (p : α → Bool) (l : List α) :
    (l.dropWhile p).length ≤ l.length := by
  induction l with
  | nil => simp
  | cons a as ih =>
    cases hp : p a with
    | true =>
      rw [List.dropWhile_cons, if_pos (by simp [hp])]
      exact Nat.le_succ_of_le ih
    | false =>
      rw [List.dropWhile_cons, if_neg (by simp [hp])]

theorem cutLastSpace_length_le (t : List Char) : (cutLastSpace t).length ≤ t.length := by
  unfold cutLastSpace
  have h1 : ((t.reverse.dropWhile (fun c => decide (c ≠ ' '))).drop 1).length ≤
      (t.reverse.dropWhile (fun c => decide (c ≠ ' '))).length := by
    simpa using List.length_drop_le 1 _
  have h2 := length_dropWhile_le (fun c => decide (c ≠ ' ')) t.reverse
  simp only [List.length_reverse] at h2 ⊢
  omega

/-- The head of a `dropWhile` result falsifies the predicate. -/
theorem head_dropWhile_false {α : Type} (p : α → Bool) :
    ∀ (l : List α) (c : α) (u : List α), l.dropWhile p = c :: u → p c = false := by
  intro l
  induction l with
  | nil => intro c u h; simp at h
  | cons a as ih =>
    intro c u h
    cases hp : p a with
    | true =>
      rw [List.dropWhile_cons, if_pos (by simp [hp])] at h
      exact ih c u h
    | false =>
      rw [List.dropWhile_cons, if_neg (by simp [hp])] at h
      injection h with h1 _
      rw [← h1]
      exact hp

/-- `cutLastSpace` ends at a word boundary: either it is empty, or `t`
continues it with a space. -/
theorem cutLastSpace_boundary (t : List Char) :
    cutLastSpace t = [] ∨ ∃ u : List Char, t = cutLastSpace t ++ ' ' :: u := by
  cases hdw : t.reverse.dropWhile (fun c => decide (c ≠ ' ')) with
  | nil =>
    left
    unfold cutLastSpace
    rw [hdw]
    simp
  | cons c u =>
    right
    have hc : (fun c => decide (c ≠ ' ')) c = false := head_dropWhile_false _ t.reverse c u hdw
    have hc' : c = ' ' := by simpa using hc
    refine ⟨(t.reverse.takeWhile (fun c => decide (c ≠ ' '))).reverse, ?_⟩
    have hcut : cutLastSpace t = u.reverse := by
      unfold cutLastSpace
      rw [hdw]
      simp
    rw [hcut]
    have hsplit := List.takeWhile_append_dropWhile (fun c => decide (c ≠ ' ')) t.reverse
    rw [hdw] at hsplit
    have ht : t = (t.reverse.takeWhile (fun c => decide (c ≠ ' ')) ++ c :: u).reverse := by
      rw [hsplit, List.reverse_reverse]
    conv_lhs => rw [ht]
    rw [hc']
    simp [List.reverse_append]

/-- `truncateBody` never exceeds the limit. -/
theorem truncateBody_length_le (limit : Nat) (l : List Char) :
    (truncateBody limit l).length ≤ limit := by
  unfold truncateBody
  by_cases h : l.length ≤ limit
  · rw [if_pos h]; exact h
  · rw [if_neg h]
    have h1 := cutLastSpace_length_le (l.take limit)
    have h2 : (l.take limit).length ≤ limit := by
      simpa using List.length_take_le limit l
    omega

/-- `truncateBody` stops at a word boundary: its result is the whole input,
or empty, or the input continues it with a space. -/
theorem truncateBody_boundary (limit : Nat) (l : List Char) :
    truncateBody limit l = l ∨ truncateBody limit l = [] ∨
      ∃ u : List Char, l = truncateBody limit l ++ ' ' :: u := by
  unfold truncateBody
  by_cases h : l.length ≤ limit
  · left; rw [if_pos h]
  · rw [if_neg h]
    rcases cutLastSpace_boundary (l.take limit) with hb | ⟨u, hu⟩
    · right; left; exact hb
    · right; right
      refine ⟨u ++ l.drop limit, ?_⟩
      conv_lhs => rw [← List.take_append_drop limit l, hu]
      simp

/-! ## Data model

Rows follow `supabase/schema.sql`: `diners` has nullable name/location/
contact columns, a text-array `interests` column and two consent booleans;
ids are modelled as natural numbers. -/

/-- A row of the `diners` table (`supabase/schema.sql`). -/
structure Diner where
  id : Nat
  first_name : Option String
  last_name : Option String
  seniority : Option String
  city : Option String
  state : Option String
  interests : List String
  email : Option String
  phone : Option String
  consent_email : Bool
  consent_sms : Bool
deriving DecidableEq

/-- Interest match mode (`match` query parameter): `any` (overlap, the
default) or `all` (containment). -/
inductive MatchMode
  | any
  | all
deriving DecidableEq

/-- The audience filter object
`\x7b city?, state?, interests?, match?, channel? \x7d` of §4.1. -/
structure DinerFilter where
  city : Option String
  state : Option String
  interests : List String
  matchMode : MatchMode
  channel : Option Channel
deriving DecidableEq

/-! ### Filter translator

Modelled from the spec (§4.1) and API_CONTRACTS.md "SQL Logic Implemented";
the backend query builder is not among the checked-in sources. -/

/-- City clause: `city ILIKE '%pat%'` — case-insensitive substring;
a diner with NULL city never matches a city filter. -/
def cityClause (fc : Option String) (dc : Option String) : Bool :=
  match fc with
  | none => true
  | some pat =>
    match dc with
    | none => false
    | some c => containsSub (lowerList c.toList) (lowerList pat.toList)

/-- State clause: `state = 's'` — exact match; NULL never matches. -/
def stateClause (fs : Option String) (ds : Option String) : Bool :=
  match fs with
  | none => true
  | some s => decide (ds = some s)

/-- Interest clause: empty request imposes no constraint; `any` is array
overlap (`&&`), `all` is containment (`@>`). -/
def interestClause (req : List String) (mode : MatchMode) (dInterests : List String) : Bool :=
  if req.isEmpty then true
  else
    match mode with
    | .any => req.any (fun t => dInterests.contains t)
    | .all => req.all (fun t => dInterests.contains t)

/-- Consent clause: email requires `consent_email = true AND email IS NOT
NULL`; sms requires `consent_sms = true AND phone IS NOT NULL`; no channel
imposes no constraint. -/
def consentClause (ch : Option Channel) (d : Diner) : Bool :=
  match ch with
  | none => true
  | some .email => d.consent_email && d.email.isSome
  | some .sms => d.consent_sms && d.phone.isSome

/-- The full translated predicate: conjunction of the four clauses. -/
def dinerMatches (f : DinerFilter) (d : Diner) : Bool :=
  cityClause f.city d.city && stateClause f.state d.state &&
    interestClause f.interests f.matchMode d.interests && consentClause f.channel d

/-! ### Deterministic ordering

`ORDER BY last_name NULLS LAST, first_name NULLS LAST`
(API_CONTRACTS.md, §4.1).  Strings compare by their character codes;
`NULL` sorts after every string. -/

/-- Lexicographic comparison of character-code lists. -/
def natLex : List Nat → List Nat → Bool
  | [], _ => true
  | _ :: _, [] => false
  | a :: as, b :: bs => decide (a < b) || (decide (a = b) && natLex as bs)

/-- Encode a nullable string for NULLS LAST ordering: present strings rank
0, NULL ranks 1. -/
def encOpt : Option String → Nat × List Nat
  | none => (1, [])
  | some s => (0, s.toList.map Char.toNat)

/-- Order on encoded keys: rank first, then lexicographic. -/
def keyLe (x y : Nat × List Nat) : Bool :=
  decide (x.1 < y.1) || (decide (x.1 = y.1) && natLex x.2 y.2)

/-- `ORDER BY last_name NULLS LAST, first_name NULLS LAST` as a total
comparison on diners. -/
def dinerLe (a b : Diner) : Bool :=
  if encOpt a.last_name = encOpt b.last_name then
    keyLe (encOpt a.first_name) (encOpt b.first_name)
  else keyLe (encOpt a.last_name) (encOpt b.last_name)

theorem natLex_total (x y : List Nat) : natLex x y = true ∨ natLex y x = true := by
  induction x generalizing y with
  | nil => left; rfl
  | cons a as ih =>
    cases y with
    | nil => right; rfl
    | cons b bs =>
      rcases Nat.lt_trichotomy a b with h | h | h
      · left; simp [natLex, h]
      · subst h
        rcases ih bs with h2 | h2
        · left; simp [natLex, h2]
        · right; simp [natLex, h2]
      · right; simp [natLex, h]

theorem natLex_trans :
    ∀ x y z : List Nat, natLex x y = true → natLex y z = true → natLex x z = true := by
  intro x
  induction x with
  | nil => intro y z _ _; rfl
  | cons a as ih =>
    intro y z hxy hyz
    cases y with
    | nil => simp [natLex] at hxy
    | cons b bs =>
      cases z with
      | nil => simp [natLex] at hyz
      | cons c cs =>
        simp only [natLex, Bool.or_eq_true, Bool.and_eq_true, decide_eq_true_eq] at hxy hyz ⊢
        rcases hxy with h1 | ⟨h1, h1'⟩ <;> rcases hyz with h2 | ⟨h2, h2'⟩
        · left; omega
        · left; omega
        · left; omega
        · right; exact ⟨by omega, ih bs cs h1' h2'⟩

theorem natLex_antisymm :
    ∀ x y : List Nat, natLex x y = true → natLex y x = true → x = y := by
  intro x
  induction x with
  | nil =>
    intro y _ hyx
    cases y with
    | nil => rfl
    | cons b bs => simp [natLex] at hyx
  | cons a as ih =>
    intro y hxy hyx
    cases y with
    | nil => simp [natLex] at hxy
    | cons b bs =>
      simp only [natLex, Bool.or_eq_true, Bool.and_eq_true, decide_eq_true_eq] at hxy hyx
      rcases hxy with h1 | ⟨h1, h1'⟩ <;> rcases hyx with h2 | ⟨h2, h2'⟩ <;> try omega
      rw [h1, ih bs h1' h2']

theorem keyLe_total (x y : Nat × List Nat) : keyLe x y = true ∨ keyLe y x = true := by
  unfold keyLe
  rcases Nat.lt_trichotomy x.1 y.1 with h | h | h
  · left; simp [h]
  · rcases natLex_total x.2 y.2 with h2 | h2
    · left; simp [h, h2]
    · right; simp [h, h2]
  · right; simp [h]

theorem keyLe_trans (x y z : Nat × List Nat) :
    keyLe x y = true → keyLe y z = true → keyLe x z = true := by
  unfold keyLe
  intro hxy hyz
  simp only [Bool.or_eq_true, Bool.and_eq_true, decide_eq_true_eq] at hxy hyz ⊢
  rcases hxy with h1 | ⟨h1, h1'⟩ <;> rcases hyz with h2 | ⟨h2, h2'⟩
  · left; omega
  · left; omega
  · left; omega
  · right; exact ⟨by omega, natLex_trans _ _ _ h1' h2'⟩

theorem keyLe_antisymm (x y : Nat × List Nat) :
    keyLe x y = true → keyLe y x = true → x = y := by
  unfold keyLe
  intro hxy hyx
  simp only [Bool.or_eq_true, Bool.and_eq_true, decide_eq_true_eq] at hxy hyx
  rcases hxy with h1 | ⟨h1, h1'⟩ <;> rcases hyx with h2 | ⟨h2, h2'⟩ <;> try omega
  have : x.2 = y.2 := natLex_antisymm _ _ h1' h2'
  exact Prod.ext h1 this

theorem dinerLe_total (a b : Diner) : dinerLe a b = true ∨ dinerLe b a = true := by
  unfold dinerLe
  by_cases h : encOpt a.last_name = encOpt b.last_name
  · rw [if_pos h, if_pos h.symm]
    exact keyLe_total _ _
  · rw [if_neg h, if_neg (fun h2 => h h2.symm)]
    exact keyLe_total _ _

theorem dinerLe_trans (a b c : Diner) :
    dinerLe a b = true → dinerLe b c = true → dinerLe a c = true := by
  unfold dinerLe
  by_cases hab : encOpt a.last_name = encOpt b.last_name <;>
    by_cases hbc : encOpt b.last_name = encOpt c.last_name
  · rw [if_pos hab, if_pos hbc, if_pos (hab.trans hbc)]
    exact keyLe_trans _ _ _
  · rw [if_pos hab, if_neg hbc, if_neg (fun h => hbc (hab.symm.trans h))]
    intro _ h2
    rw [hab]
    exact h2
  · rw [if_neg hab, if_pos hbc, if_neg (fun h => hab (h.trans hbc.symm))]
    intro h1 _
    rw [← hbc]
    exact h1
  · rw [if_neg hab, if_neg hbc]
    intro h1 h2
    by_cases hac : encOpt a.last_name = encOpt c.last_name
    · exfalso
      apply hab
      rw [← hac] at h2
      exact keyLe_antisymm _ _ h1 h2
    · rw [if_neg hac]
      exact keyLe_trans _ _ _ h1 h2

/-! ## Diner search (read path)

Modelled from the spec (§4.4) and API_CONTRACTS.md: filter, count the full
match set, order deterministically, clamp `pageSize` to 100, return one
page. -/

/-- Search response: one page of items plus the total match count. -/
structure SearchResult where
  items : List Diner
  total : Nat
deriving DecidableEq

/-- All diners matching the filter, in the deterministic §4.1 order. -/
def searchOrdered (store : List Diner) (f : DinerFilter) : List Diner :=
  List.insertionSort (fun a b => dinerLe a b = true) (store.filter (fun d => dinerMatches f d))

/-- `search(filter, page, pageSize)`: `pageSize` clamped to at most 100,
offset `(page-1)*pageSize`, `LIMIT pageSize`. -/
def searchDiners (store : List Diner) (f : DinerFilter) (page pageSize : Nat) : SearchResult :=
  let eff := min pageSize 100
  let ordered := searchOrdered store f
  { items := (ordered.drop ((page - 1) * eff)).take eff
    total := ordered.length }

/-- Every item a search returns comes from the full ordered match set. -/
theorem mem_searchDiners_items {store : List Diner} {f : DinerFilter}
    {page pageSize : Nat} {d : Diner} (h : d ∈ (searchDiners store f page pageSize).items) :
    dinerMatches f d = true := by
  unfold searchDiners at h
  simp only at h
  have h1 : d ∈ searchOrdered store f :=
    (List.drop_sublist _ _).subset ((List.take_sublist _ _).subset h)
  unfold searchOrdered at h1
  have h2 : d ∈ store.filter (fun d => dinerMatches f d) :=
    (List.perm_insertionSort (fun a b => dinerLe a b = true) _).subset h1
  exact (List.mem_filter.mp h2).2

/-! ## Campaign materialization and database state

Modelled from the spec (§4.2, §4.3) and API_CONTRACTS.md "POST
/api/v1/campaigns Server Logic"; the backend handlers are not among the
checked-in sources.  Row shapes and the `delivery_status` vocabulary follow
`supabase/schema.sql`. -/

/-- A row of the `restaurants` table (only the columns the campaign flow
reads). -/
structure RestaurantRow where
  id : Nat
  owner_user_id : Nat
  name : String
deriving DecidableEq

/-- A row of the `campaigns` table. -/
structure CampaignRow where
  id : Nat
  restaurant_id : Nat
  channel : Channel
  subject : Option String
  body : String
  audience_filter : DinerFilter
deriving DecidableEq

/-- A row of the `campaign_recipients` table: the rendered preview is the
body with the `\x7bFirstName\x7d` token substituted. -/
structure RecipientRow where
  campaign_id : Nat
  diner_id : Nat
  delivery_status : String
  preview_body : String
deriving DecidableEq

/-- The persisted state: the four tables plus an id counter standing for
the database's id generator. -/
structure DB where
  restaurants : List RestaurantRow
  diners : List Diner
  campaigns : List CampaignRow
  recipients : List RecipientRow
  nextId : Nat
deriving DecidableEq

/-- API error taxonomy relevant to the campaign flow (§7). -/
inductive ApiError
  | notFound
  | validationError
deriving DecidableEq

/-- Body of `POST /api/v1/campaigns`
(`frontend/src/lib/api.ts` `CreateCampaignRequest`): channel, name,
optional subject, body, and the audience filter object. -/
structure CreateCampaignRequest where
  channel : Channel
  name : String
  subject : Option String
  body : String
  filters : DinerFilter
deriving DecidableEq

/-- Response of `POST /api/v1/campaigns`: campaign id, audience size, and a
bounded preview list. -/
structure CreateCampaignResponse where
  campaignId : Nat
  audienceSize : Nat
  previews : List RecipientRow
deriving DecidableEq

/-- The audience filter with the mandatory consent/channel clause conjoined
(§4.2 step 2). -/
def audienceFilter (req : CreateCampaignRequest) : DinerFilter :=
  { req.filters with channel := some req.channel }

/-- First name used for rendering: the diner's first name, empty string
when absent (§4.2 step 4). -/
def dinerFirstName (d : Diner) : String := d.first_name.getD ""

/-- The recipient row materialized for one matched diner:
`delivery_status = "simulated_sent"` unconditionally, preview rendered by
token substitution. -/
def mkRecipient (cid : Nat) (body : String) (d : Diner) : RecipientRow :=
  { campaign_id := cid
    diner_id := d.id
    delivery_status := "simulated_sent"
    preview_body := renderBody (dinerFirstName d) body }

/-- The complete recipient set for a request against a diner store: one row
per diner of the full match set (independent of any pagination). -/
def campaignRecipients (cid : Nat) (req : CreateCampaignRequest) (diners : List Diner) :
    List RecipientRow :=
  (diners.filter (fun d => dinerMatches (audienceFilter req) d)).map
    (mkRecipient cid req.body)

/-- `createCampaign` (§4.2): resolve the caller's restaurant (404 when
absent), resolve the full audience with the consent clause, persist the
campaign row and one recipient row per matched diner in one transaction,
and return id, audience size and a bounded preview list. -/
def createCampaign (db : DB) (ownerId : Nat) (req : CreateCampaignRequest) :
    Except ApiError (DB × CreateCampaignResponse) :=
  match db.restaurants.find? (fun r => decide (r.owner_user_id = ownerId)) with
  | none => .error .notFound
  | some rest =>
    let cid := db.nextId
    let campaign : CampaignRow :=
      { id := cid
        restaurant_id := rest.id
        channel := req.channel
        subject := req.subject
        body := req.body
        audience_filter := req.filters }
    let recips := campaignRecipients cid req db.diners
    .ok
      ({ db with
          campaigns := campaign :: db.campaigns
          recipients := recips ++ db.recipients
          nextId := db.nextId + 1 },
        { campaignId := cid
          audienceSize := recips.length
          previews := recips.take 5 })

/-- The state after a campaign-creation attempt: the new state on success,
the unchanged state on failure (all-or-nothing, §4.2). -/
def applyCreateCampaign (db : DB) (ownerId : Nat) (req : CreateCampaignRequest) : DB :=
  match createCampaign db ownerId req with
  | .ok (db', _) => db'
  | .error _ => db

/-- `upsert(ownerId, fields)` for the restaurant profile (§4.3): update in
place when a row for the owner exists, insert otherwise. -/
def upsertRestaurant (db : DB) (ownerId : Nat) (name : String) : DB :=
  match db.restaurants.find? (fun r => decide (r.owner_user_id = ownerId)) with
  | some _ =>
    { db with
        restaurants := db.restaurants.map
          (fun r => if r.owner_user_id = ownerId then { r with name := name } else r) }
  | none =>
    { db with
        restaurants := { id := db.nextId, owner_user_id := ownerId, name := name } :: db.restaurants
        nextId := db.nextId + 1 }

/-- `DELETE /api/v1/campaigns/\x7bid\x7d`: remove an owned campaign and,
by the schema's `on delete cascade`, its recipient rows. -/
def deleteCampaign (db : DB) (ownerId : Nat) (cid : Nat) : DB :=
  let owned := db.campaigns.any (fun c =>
    decide (c.id = cid) && db.restaurants.any (fun r =>
      decide (r.id = c.restaurant_id) && decide (r.owner_user_id = ownerId)))
  if owned then
    { db with
        campaigns := db.campaigns.filter (fun c => decide (c.id ≠ cid))
        recipients := db.recipients.filter (fun r => decide (r.campaign_id ≠ cid)) }
  else db

/-- One application-level transition of the persisted state. -/
inductive Step : DB → DB → Prop
  | create {db : DB} (ownerId : Nat) (req : CreateCampaignRequest) {db' : DB}
      (resp : CreateCampaignResponse) (h : createCampaign db ownerId req = .ok (db', resp)) :
      Step db db'
  | upsert {db : DB} (ownerId : Nat) (name : String) : Step db (upsertRestaurant db ownerId name)
  | delete {db : DB} (ownerId : Nat) (cid : Nat) : Step db (deleteCampaign db ownerId cid)

/-- Reachable states: an externally seeded read-only diner store with no
tenant rows, then any sequence of application transitions. -/
inductive Reachable : DB → Prop
  | init (diners : List Diner) : Reachable ⟨[], diners, [], [], 0⟩
  | step {db db' : DB} : Reachable db → Step db db' → Reachable db'

/-! ## Compose flow (frontend)

Embedded from `frontend/src/app/app/compose/page.tsx` (`handleSend`),
`frontend/src/app/app/search/page.tsx` (`handleSearch`,
`handleCreateCampaign`) and `frontend/src/lib/api.ts`
(`APIClient.createCampaign`). -/

/-- The browser `sessionStorage` keys the search/compose pages use:
`lastSearchFilters` (written by every search), `selectedDiners` (written by
`handleCreateCampaign`), `campaignChannel`. -/
structure Session where
  lastSearchFilters : Option DinerFilter
  selectedDiners : List String
  campaignChannel : Option Channel
deriving DecidableEq

/-- The fallback filter object `\x7b match: 'any' \x7d` used by `handleSend`
when no search was saved. -/
def defaultFilters : DinerFilter :=
  { city := none, state := none, interests := [], matchMode := .any, channel := none }

/-- `handleSend` (compose page lines 125–157): the campaign-creation
request is built from the saved `lastSearchFilters` (default
`\x7b match: 'any' \x7d`), the chosen channel, the campaign name, the
subject (email only) and the body.  The `selectedDiners` key is never read
here. -/
def composeBuildRequest (s : Session) (channel : Channel) (name subject body : String) :
    CreateCampaignRequest :=
  { channel := channel
    name := name
    subject := match channel with | .email => some subject | .sms => none
    body := body
    filters := s.lastSearchFilters.getD defaultFilters }

/-! ## Wellformedness of persisted state -/

/-- Id discipline maintained by the id counter: every persisted campaign id,
and hence every recipient's campaign reference, is below `nextId`. -/
def WF (db : DB) : Prop :=
  (∀ c ∈ db.campaigns, c.id < db.nextId) ∧
    (∀ r ∈ db.recipients, r.campaign_id < db.nextId)

/-- Success shape of `createCampaign`: on `.ok` the new state prepends the
campaign row and exactly the complete recipient set, and the response
reports the fresh id and the audience size. -/
theorem createCampaign_ok_shape {db : DB} {ownerId : Nat} {req : CreateCampaignRequest}
    {db' : DB} {resp : CreateCampaignResponse}
    (h : createCampaign db ownerId req = .ok (db', resp)) :
    ∃ rest : RestaurantRow,
      db.restaurants.find? (fun r => decide (r.owner_user_id = ownerId)) = some rest ∧
      db'.campaigns =
        ({ id := db.nextId, restaurant_id := rest.id, channel := req.channel,
           subject := req.subject, body := req.body,
           audience_filter := req.filters } : CampaignRow) :: db.campaigns ∧
      db'.recipients = campaignRecipients db.nextId req db.diners ++ db.recipients ∧
      db'.restaurants = db.restaurants ∧ db'.diners = db.diners ∧
      db'.nextId = db.nextId + 1 ∧
      resp = { campaignId := db.nextId,
               audienceSize := (campaignRecipients db.nextId req db.diners).length,
               previews := (campaignRecipients db.nextId req db.diners).take 5 } := by
  unfold createCampaign at h
  cases hf : db.restaurants.find? (fun r => decide (r.owner_user_id = ownerId)) with
  | none => rw [hf] at h; exact absurd h (by simp)
  | some rest =>
    rw [hf] at h
    simp only [Except.ok.injEq, Prod.mk.injEq] at h
    obtain ⟨hdb, hresp⟩ := h
    refine ⟨rest, rfl, ?_, ?_, ?_, ?_, ?_, hresp.symm⟩ <;> rw [← hdb]

/-- Every recipient row materialized for a campaign carries that campaign's
id. -/
theorem campaignRecipients_campaign_id {cid : Nat} {req : CreateCampaignRequest}
    {diners : List Diner} {r : RecipientRow} (h : r ∈ campaignRecipients cid req diners) :
    r.campaign_id = cid := by
  unfold campaignRecipients at h
  obtain ⟨d, _, rfl⟩ := List.mem_map.mp h
  rfl

/-! ## Concrete scenario (spec §8)

diner set = [\x7bcity:"Austin", state:"TX", interests:["bbq"],
consent_sms:true, phone:"+1..."\x7d], filter=\x7bstate:"TX",
channel:"sms"\x7d. -/

/-- The Austin/TX diner of the spec's sms scenario. -/
def demoDiner : Diner :=
  { id := 7, first_name := some "Jo", last_name := some "Smith", seniority := none,
    city := some "Austin", state := some "TX", interests := ["bbq"],
    email := some "jo@example.com", phone := some "+15125550100",
    consent_email := true, consent_sms := true }

/-- The scenario's saved search filter: state = "TX", no channel yet. -/
def demoFilters : DinerFilter :=
  { city := none, state := some "TX", interests := [], matchMode := .any, channel := none }

/-- The scenario's sms campaign-creation request. -/
def demoReq : CreateCampaignRequest :=
  { channel := .sms, name := "BBQ Blast", subject := none,
    body := "Hi \x7bFirstName\x7d, brisket tonight!", filters := demoFilters }

/-- Initial state: externally seeded diner store, no tenant rows. -/
def db0 : DB := ⟨[], [demoDiner], [], [], 0⟩

/-- After the owner (user 42) upserts a restaurant profile. -/
def db1 : DB := upsertRestaurant db0 42 "Smoke House"

/-- After user 42 creates the scenario campaign. -/
def db2 : DB := applyCreateCampaign db1 42 demoReq

/-- The single recipient row the scenario materializes. -/
def demoRecipient : RecipientRow :=
  { campaign_id := 1, diner_id := 7, delivery_status := "simulated_sent",
    preview_body := "Hi Jo, brisket tonight!" }

/-- The scenario's campaign-creation response: audienceSize = 1. -/
def demoResp : CreateCampaignResponse :=
  { campaignId := 1, audienceSize := 1, previews := [demoRecipient] }

theorem demo_create_ok : createCampaign db1 42 demoReq = .ok (db2, demoResp) := rfl

theorem demo_reachable : Reachable db2 :=
  Reachable.step
    (Reachable.step (Reachable.init [demoDiner]) (Step.upsert 42 "Smoke House"))
    (Step.create 42 demoReq demoResp demo_create_ok)

/-! ## Instances for the deterministic order -/

instance : IsTotal Diner (fun a b => dinerLe a b = true) :=
  ⟨dinerLe_total⟩

instance : IsTrans Diner (fun a b => dinerLe a b = true) :=
  ⟨dinerLe_trans⟩

/-! ## Claim theorems -/

/-- C7: For every AI offer request, the returned body length is at most the
channel limit — 500 characters for email, 160 for sms — and when the
upstream body exceeds the limit the result stops at a word boundary: it is
the whole upstream body, or empty, or the upstream body continues it with a
space (never cut mid-word). -/
theorem ai_offer_length_word_boundary :
    ∀ (ch : Channel) (upstream : String),
      ((aiOfferBody ch upstream).length ≤ limitFor ch ∧
        limitFor Channel.email = 500 ∧ limitFor Channel.sms = 160) ∧
      ((aiOfferBody ch upstream).toList = upstream.toList ∨
        (aiOfferBody ch upstream).toList = [] ∨
        ∃ u : List Char, upstream.toList = (aiOfferBody ch upstream).toList ++ ' ' :: u) := by
  intro ch upstream
  refine ⟨⟨truncateBody_length_le (limitFor ch) upstream.toList, rfl, rfl⟩, ?_⟩
  exact truncateBody_boundary (limitFor ch) upstream.toList

/-- C9: For every diner search request, the number of returned items never
exceeds min(pageSize, 100): the effective page size is clamped to 100. -/
theorem page_size_clamped :
    ∀ (store : List Diner) (f : DinerFilter) (page pageSize : Nat),
      (searchDiners store f page pageSize).items.length ≤ min pageSize 100 := by
  intro store f page pageSize
  unfold searchDiners
  simp only [List.length_take]
  exact min_le_left _ _

/-- C4: Every diner a search returns satisfies the interest filter: with
match="all" and a non-empty interest list the diner's interest set is a
superset of the requested set, with match="any" it intersects it
non-emptily; and an empty interest list imposes no interest constraint on
any diner. -/
theorem search_interest_filter_semantics :
    (∀ (store : List Diner) (f : DinerFilter) (page pageSize : Nat) (d : Diner),
        d ∈ (searchDiners store f page pageSize).items →
        (f.matchMode = MatchMode.all → f.interests ≠ [] →
          ∀ t ∈ f.interests, t ∈ d.interests) ∧
        (f.matchMode = MatchMode.any → f.interests ≠ [] →
          ∃ t ∈ f.interests, t ∈ d.interests)) ∧
    (∀ (f : DinerFilter) (d : Diner), f.interests = [] →
        interestClause f.interests f.matchMode d.interests = true) := by
  constructor
  · intro store f page pageSize d hd
    have hm : dinerMatches f d = true := mem_searchDiners_items hd
    unfold dinerMatches at hm
    simp only [Bool.and_eq_true] at hm
    have hint : interestClause f.interests f.matchMode d.interests = true := hm.1.2
    unfold interestClause at hint
    constructor
    · intro hmode hne
      rw [hmode] at hint
      rw [if_neg (by simp [List.isEmpty_iff, hne])] at hint
      intro t ht
      have := (List.all_eq_true.mp hint) t ht
      simpa using this
    · intro hmode hne
      rw [hmode] at hint
      rw [if_neg (by simp [List.isEmpty_iff, hne])] at hint
      obtain ⟨t, ht, htc⟩ := List.any_eq_true.mp hint
      exact ⟨t, ht, by simpa using htc⟩
  · intro f d hempty
    unfold interestClause
    rw [if_pos (by simp [List.isEmpty_iff, hempty])]

/-- Witness for C4: in the demo store, searching with interests=["bbq"] and
match="all" returns the Austin diner, whose tag set contains "bbq". -/
theorem search_interest_filter_semantics_witness :
    "bbq" ∈ demoDiner.interests :=
  (search_interest_filter_semantics.1 [demoDiner]
      { city := none, state := none, interests := ["bbq"], matchMode := .all, channel := none }
      1 25 demoDiner (by decide)).1 rfl (by decide) "bbq" (by decide)

/-- C5 counterexample: rendering is not idempotent as claimed.  With a
diner first name of "e\x7d" and body "\x7bFirstNam\x7bFirstName\x7d", the
first render yields "\x7bFirstName\x7d" (the replacement re-forms the
token), and rendering that already-rendered body changes it again. -/
theorem render_idempotent_counterexample :
    renderBody "e\x7d" (renderBody "e\x7d" "\x7bFirstNam\x7bFirstName\x7d") ≠
      renderBody "e\x7d" "\x7bFirstNam\x7bFirstName\x7d" := by decide

/-- C5 (amended): rendering is total and replaces every occurrence of
\x7bFirstName\x7d left to right — a body with no occurrence renders
unchanged; the first occurrence is replaced by the first name and the
remainder rendered recursively; a diner without a first name renders with
the empty string; and rendering an already-rendered body leaves it
unchanged provided the rendered body no longer contains the token (without
that proviso idempotency fails, as the counterexample shows). -/
theorem render_substitution_amended :
    (∀ n b : String, hasTok b.toList = false → renderBody n b = b) ∧
    (∀ (n : String) (a c : List Char),
        (∀ i, i < a.length → tok.isPrefixOf ((a ++ tok ++ c).drop i) = false) →
        replaceGo n.toList 0 (a ++ tok ++ c) = a ++ n.toList ++ replaceGo n.toList 0 c) ∧
    (∀ (d : Diner) (b : String), d.first_name = none →
        renderBody (dinerFirstName d) b = renderBody "" b) ∧
    (∀ n b : String, hasTok (renderBody n b).toList = false →
        renderBody n (renderBody n b) = renderBody n b) := by
  refine ⟨renderBody_of_not_hasTok, ?_, ?_, ?_⟩
  · intro n a c h
    exact replaceGo_first_occurrence n.toList a c h
  · intro d b h
    unfold dinerFirstName
    rw [h, Option.getD_none]
  · intro n b h
    exact renderBody_of_not_hasTok n (renderBody n b) h

/-- Witness for C5 (amended): concrete instances — a token-free body is
unchanged, "Hi \x7bFirstName\x7d!" renders to "Hi Jo!", and the rendered
body is a fixed point. -/
theorem render_substitution_amended_witness :
    renderBody "Jo" "Hello there" = "Hello there" ∧
    replaceGo "Jo".toList 0 ("Hi ".toList ++ tok ++ "!".toList) =
      "Hi ".toList ++ "Jo".toList ++ replaceGo "Jo".toList 0 "!".toList ∧
    renderBody "Jo" (renderBody "Jo" "Hi \x7bFirstName\x7d!") =
      renderBody "Jo" "Hi \x7bFirstName\x7d!" :=
  ⟨render_substitution_amended.1 "Jo" "Hello there" (by decide),
    render_substitution_amended.2.1 "Jo" "Hi ".toList "!".toList (by decide),
    render_substitution_amended.2.2.2 "Jo" "Hi \x7bFirstName\x7d!" (by decide)⟩

/-- C10: The compose flow builds the campaign-creation request solely from
the saved `lastSearchFilters` (defaulting to match:'any'), the chosen
channel, name, subject (email only) and body; the `selectedDiners`
selection is never part of the request, so two sessions differing only in
their selections produce identical requests and identical campaign
creations. -/
theorem compose_request_ignores_selected_diners :
    (∀ (s : Session) (ch : Channel) (name subject body : String),
        composeBuildRequest s ch name subject body =
          { channel := ch, name := name,
            subject := match ch with | .email => some subject | .sms => none,
            body := body, filters := s.lastSearchFilters.getD defaultFilters }) ∧
    (∀ (s1 s2 : Session) (ch : Channel) (name subject body : String),
        s1.lastSearchFilters = s2.lastSearchFilters →
        composeBuildRequest s1 ch name subject body =
          composeBuildRequest s2 ch name subject body) ∧
    (∀ (db : DB) (ownerId : Nat) (s1 s2 : Session) (ch : Channel)
        (name subject body : String),
        s1.lastSearchFilters = s2.lastSearchFilters →
        createCampaign db ownerId (composeBuildRequest s1 ch name subject body) =
          createCampaign db ownerId (composeBuildRequest s2 ch name subject body)) := by
  refine ⟨fun s ch name subject body => rfl, ?_, ?_⟩
  · intro s1 s2 ch name subject body h
    unfold composeBuildRequest
    rw [h]
  · intro db ownerId s1 s2 ch name subject body h
    have : composeBuildRequest s1 ch name subject body =
        composeBuildRequest s2 ch name subject body := by
      unfold composeBuildRequest
      rw [h]
    rw [this]

/-- Witness for C10: two sessions with the same saved filters but disjoint
selections — one empty, one with two phone keys — yield the same request
and the same campaign creation on the demo database. -/
theorem compose_request_ignores_selected_diners_witness :
    composeBuildRequest ⟨some demoFilters, [], none⟩ Channel.sms "BBQ Blast" "" "B" =
      composeBuildRequest ⟨some demoFilters, ["+15125550100", "+15125550101"], some .sms⟩
        Channel.sms "BBQ Blast" "" "B" ∧
    createCampaign db1 42
        (composeBuildRequest ⟨some demoFilters, [], none⟩ Channel.sms "BBQ Blast" "" "B") =
      createCampaign db1 42
        (composeBuildRequest ⟨some demoFilters, ["+15125550100", "+15125550101"], some .sms⟩
          Channel.sms "BBQ Blast" "" "B") :=
  ⟨compose_request_ignores_selected_diners.2.1 _ _ Channel.sms "BBQ Blast" "" "B" rfl,
    compose_request_ignores_selected_diners.2.2 db1 42 _ _ Channel.sms "BBQ Blast" "" "B" rfl⟩

/-- Under the id discipline, filtering the post-creation recipient table by
the returned campaign id recovers exactly the newly materialized rows. -/
theorem new_recipients_filter {db : DB} {ownerId : Nat} {req : CreateCampaignRequest}
    {db' : DB} {resp : CreateCampaignResponse} (hwf : WF db)
    (h : createCampaign db ownerId req = .ok (db', resp)) :
    db'.recipients.filter (fun r => decide (r.campaign_id = resp.campaignId)) =
      campaignRecipients db.nextId req db.diners := by
  obtain ⟨rest, _, _, hrec, _, _, _, hresp⟩ := createCampaign_ok_shape h
  have hcid : resp.campaignId = db.nextId := by rw [hresp]
  rw [hrec, hcid, List.filter_append]
  have hnew : (campaignRecipients db.nextId req db.diners).filter
      (fun r => decide (r.campaign_id = db.nextId)) =
      campaignRecipients db.nextId req db.diners := by
    apply List.filter_eq_self.mpr
    intro r hr
    simp [campaignRecipients_campaign_id hr]
  have hold : db.recipients.filter (fun r => decide (r.campaign_id = db.nextId)) = [] := by
    apply List.filter_eq_nil_iff.mpr
    intro r hr
    have := hwf.2 r hr
    simp only [decide_eq_true_eq]
    omega
  rw [hnew, hold, List.append_nil]

/-- A diner matching the audience filter satisfies the channel's mandatory
consent clause. -/
theorem consent_of_matches {req : CreateCampaignRequest} {d : Diner}
    (h : dinerMatches (audienceFilter req) d = true) :
    (req.channel = Channel.email → d.consent_email = true ∧ d.email ≠ none) ∧
    (req.channel = Channel.sms → d.consent_sms = true ∧ d.phone ≠ none) := by
  unfold dinerMatches at h
  simp only [Bool.and_eq_true] at h
  have hc : consentClause (audienceFilter req).channel d = true := h.2
  have hch : (audienceFilter req).channel = some req.channel := rfl
  rw [hch] at hc
  constructor
  · intro he
    rw [he] at hc
    simp only [consentClause, Bool.and_eq_true] at hc
    exact ⟨hc.1, by simpa [Option.isSome_iff_ne_none] using hc.2⟩
  · intro hs
    rw [hs] at hc
    simp only [consentClause, Bool.and_eq_true] at hc
    exact ⟨hc.1, by simpa [Option.isSome_iff_ne_none] using hc.2⟩

/-- C1: The recipient rows a campaign creation persists are exactly one per
diner of the complete match set of the filter conjoined with the mandatory
consent clause — for email, consent_email=true and a non-null email; for
sms, consent_sms=true and a non-null phone — independent of any
pagination, with no recipient outside that set. -/
theorem campaign_recipients_exact_match_set {db : DB} {ownerId : Nat}
    {req : CreateCampaignRequest} {db' : DB} {resp : CreateCampaignResponse}
    (hwf : WF db) (h : createCampaign db ownerId req = .ok (db', resp)) :
    ((db'.recipients.filter (fun r => decide (r.campaign_id = resp.campaignId))).map
        (fun r => r.diner_id) =
      (db.diners.filter (fun d => dinerMatches (audienceFilter req) d)).map
        (fun d => d.id)) ∧
    (∀ r ∈ db'.recipients.filter (fun r => decide (r.campaign_id = resp.campaignId)),
      ∃ d ∈ db.diners, d.id = r.diner_id ∧ dinerMatches (audienceFilter req) d = true ∧
        (req.channel = Channel.email → d.consent_email = true ∧ d.email ≠ none) ∧
        (req.channel = Channel.sms → d.consent_sms = true ∧ d.phone ≠ none)) := by
  have hfilter := new_recipients_filter hwf h
  constructor
  · rw [hfilter]
    unfold campaignRecipients
    rw [List.map_map]
    rfl
  · intro r hr
    rw [hfilter] at hr
    unfold campaignRecipients at hr
    obtain ⟨d, hd, rfl⟩ := List.mem_map.mp hr
    have hd' := List.mem_filter.mp hd
    exact ⟨d, hd'.1, rfl, hd'.2, consent_of_matches hd'.2⟩

/-- Witness for C1: on the demo database, the scenario's sms campaign
materializes a recipient list whose diner ids are exactly those of the
matching consenting diners. -/
theorem campaign_recipients_exact_match_set_witness :
    ((db2.recipients.filter (fun r => decide (r.campaign_id = demoResp.campaignId))).map
        (fun r => r.diner_id) =
      (db1.diners.filter (fun d => dinerMatches (audienceFilter demoReq) d)).map
        (fun d => d.id)) ∧
    (∀ r ∈ db2.recipients.filter (fun r => decide (r.campaign_id = demoResp.campaignId)),
      ∃ d ∈ db1.diners, d.id = r.diner_id ∧
        dinerMatches (audienceFilter demoReq) d = true ∧
        (demoReq.channel = Channel.email → d.consent_email = true ∧ d.email ≠ none) ∧
        (demoReq.channel = Channel.sms → d.consent_sms = true ∧ d.phone ≠ none)) :=
  campaign_recipients_exact_match_set (by constructor <;> decide) demo_create_ok

/-- C2: The audienceSize a successful campaign creation returns equals the
number of recipient rows persisted for the returned campaign id. -/
theorem audience_size_eq_persisted_count {db : DB} {ownerId : Nat}
    {req : CreateCampaignRequest} {db' : DB} {resp : CreateCampaignResponse}
    (hwf : WF db) (h : createCampaign db ownerId req = .ok (db', resp)) :
    resp.audienceSize =
      (db'.recipients.filter (fun r => decide (r.campaign_id = resp.campaignId))).length := by
  obtain ⟨rest, _, _, _, _, _, _, hresp⟩ := createCampaign_ok_shape h
  rw [new_recipients_filter hwf h, hresp]

/-- Witness for C2: the demo campaign creation returns audienceSize 1 and
persists exactly one row for campaign id 1. -/
theorem audience_size_eq_persisted_count_witness :
    demoResp.audienceSize =
      (db2.recipients.filter (fun r => decide (r.campaign_id = demoResp.campaignId))).length :=
  audience_size_eq_persisted_count (by constructor <;> decide) demo_create_ok

/-- C3: Campaign materialization is all-or-nothing: every invocation either
fails leaving the state untouched, or succeeds persisting the campaign row
together with its complete recipient set in one step — no reachable state
holds a partially inserted recipient list. -/
theorem create_campaign_atomic :
    ∀ (db : DB) (ownerId : Nat) (req : CreateCampaignRequest),
      (∃ e, createCampaign db ownerId req = .error e ∧
        applyCreateCampaign db ownerId req = db) ∨
      (∃ resp c, createCampaign db ownerId req = .ok (applyCreateCampaign db ownerId req, resp) ∧
        (applyCreateCampaign db ownerId req).campaigns = c :: db.campaigns ∧
        (applyCreateCampaign db ownerId req).recipients =
          campaignRecipients c.id req db.diners ++ db.recipients) := by
  intro db ownerId req
  unfold createCampaign applyCreateCampaign
  cases hf : db.restaurants.find? (fun r => decide (r.owner_user_id = ownerId)) with
  | none =>
    left
    rw [createCampaign, hf]
    exact ⟨.notFound, rfl, rfl⟩
  | some rest =>
    right
    rw [createCampaign, hf]
    exact ⟨_, _, rfl, rfl, rfl⟩

/-- Across any transition, every recipient row afterwards is either an old
row kept verbatim or a freshly materialized row with status
"simulated_sent"; no transition rewrites an existing row. -/
theorem step_recipients_preserved {db db' : DB} (h : Step db db') :
    ∀ r' ∈ db'.recipients, r' ∈ db.recipients ∨ r'.delivery_status = "simulated_sent" := by
  intro r' hr'
  cases h with
  | create ownerId req resp hok =>
    obtain ⟨rest, _, _, hrec, _, _, _, _⟩ := createCampaign_ok_shape hok
    rw [hrec] at hr'
    rcases List.mem_append.mp hr' with hnew | hold
    · right
      unfold campaignRecipients at hnew
      obtain ⟨d, _, rfl⟩ := List.mem_map.mp hnew
      rfl
    · left; exact hold
  | upsert ownerId name =>
    left
    unfold upsertRestaurant at hr'
    cases hf : db.restaurants.find? (fun r => decide (r.owner_user_id = ownerId)) with
    | some r0 => rw [hf] at hr'; exact hr'
    | none => rw [hf] at hr'; exact hr'
  | delete ownerId cid =>
    left
    simp only [deleteCampaign] at hr'
    split at hr'
    · exact (List.mem_filter.mp hr').1
    · exact hr'

/-- C6: Every recipient row persisted by campaign creation has
delivery_status "simulated_sent" unconditionally; in every reachable state
every recipient row's status is one of the schema's two permitted values
"simulated_sent" / "simulated_failed"; and no transition ever updates an
existing recipient row. -/
theorem delivery_status_invariant :
    (∀ db : DB, Reachable db → ∀ r ∈ db.recipients,
        r.delivery_status = "simulated_sent" ∨ r.delivery_status = "simulated_failed") ∧
    (∀ (db db' : DB), Step db db' → ∀ r' ∈ db'.recipients,
        r' ∈ db.recipients ∨ r'.delivery_status = "simulated_sent") := by
  constructor
  · intro db hreach
    induction hreach with
    | init diners => intro r hr; simp at hr
    | step hdb hs ih =>
      intro r hr
      rcases step_recipients_preserved hs r hr with hold | hsent
      · exact ih r hold
      · left; exact hsent
  · intro db db' hs
    exact step_recipients_preserved hs

/-- Witness for C6: the scenario recipient in the reachable demo state has
one of the two permitted statuses (in fact "simulated_sent"). -/
theorem delivery_status_invariant_witness :
    demoRecipient.delivery_status = "simulated_sent" ∨
      demoRecipient.delivery_status = "simulated_failed" :=
  delivery_status_invariant.1 db2 demo_reachable demoRecipient (by decide)

/-- The full match set is sorted by the deterministic §4.1 order. -/
theorem searchOrdered_sorted (store : List Diner) (f : DinerFilter) :
    List.Sorted (fun a b => dinerLe a b = true) (searchOrdered store f) :=
  List.sorted_insertionSort _ _

/-- A search page is a contiguous slice of the full ordered match set. -/
theorem searchDiners_items_sublist (store : List Diner) (f : DinerFilter)
    (page pageSize : Nat) :
    (searchDiners store f page pageSize).items.Sublist (searchOrdered store f) := by
  unfold searchDiners
  exact (List.take_sublist _ _).trans (List.drop_sublist _ _)

/-- Pages 1 and 2 of size 25 concatenate, in order, to the first 50
elements of the full ordered match set. -/
theorem searchDiners_pages_concat (store : List Diner) (f : DinerFilter) :
    (searchDiners store f 1 25).items ++ (searchDiners store f 2 25).items =
      (searchOrdered store f).take 50 := by
  unfold searchDiners
  simp only
  norm_num
  exact (List.take_add (searchOrdered store f) 25 25).symm

/-- With distinct diner ids, the full ordered match set has no duplicates. -/
theorem searchOrdered_nodup (store : List Diner) (f : DinerFilter)
    (h : (store.map Diner.id).Nodup) : (searchOrdered store f).Nodup := by
  have hstore : store.Nodup := h.of_map
  have hfilter : (store.filter (fun d => dinerMatches f d)).Nodup :=
    List.Nodup.filter _ hstore
  exact ((List.perm_insertionSort (fun a b => dinerLe a b = true) _).nodup_iff).mpr hfilter

/-- C8: Search results follow the deterministic ordering (last name
ascending nulls last, then first name ascending nulls last — every page is
sorted by that key); over an unchanged diner set pages 1 and 2 of size 25
concatenate, in order, to the first 50 elements of the full ordered result;
and (with distinct diner ids) the two pages are disjoint. -/
theorem search_order_pagination_stable :
    (∀ (store : List Diner) (f : DinerFilter) (page pageSize : Nat),
        List.Sorted (fun a b => dinerLe a b = true)
          (searchDiners store f page pageSize).items) ∧
    (∀ (store : List Diner) (f : DinerFilter),
        (searchDiners store f 1 25).items ++ (searchDiners store f 2 25).items =
          (searchOrdered store f).take 50) ∧
    (∀ (store : List Diner) (f : DinerFilter),
        (store.map Diner.id).Nodup →
        (searchDiners store f 1 25).items.Disjoint (searchDiners store f 2 25).items) := by
  refine ⟨?_, searchDiners_pages_concat, ?_⟩
  · intro store f page pageSize
    exact List.Pairwise.sublist (searchDiners_items_sublist store f page pageSize)
      (searchOrdered_sorted store f)
  · intro store f h
    have h50 : ((searchOrdered store f).take 50).Nodup :=
      (List.take_sublist 50 _).nodup (searchOrdered_nodup store f h)
    rw [← searchDiners_pages_concat store f] at h50
    exact (List.nodup_append.mp h50).2.2

/-- Witness for C8: on the one-diner demo store (distinct ids hold by
computation) pages 1 and 2 are disjoint. -/
theorem search_order_pagination_stable_witness :
    List.Disjoint (searchDiners [demoDiner] demoFilters 1 25).items
      (searchDiners [demoDiner] demoFilters 2 25).items :=
  search_order_pagination_stable.2.2 [demoDiner] demoFilters (by decide)
